import Mathlib

/-!
Verification of the recipe-resolution engine of `streamlit_app.py` (Pax Dei
recipe calculator).

The Python module is embedded shallowly:

* JSON records become Lean structures (`Item`, `Entity`, `Stack`, `Recipe`).
* Python dicts built by successive assignment become association lists whose
  lookup (`pyGet`) returns the last binding, matching dict overwrite
  semantics; the insertion-ordered breakdown dicts built by
  `breakdown[mat] = breakdown.get(mat, 0) + qty` become `updAdd`/`mergeDict`.
* The recursive resolvers `resolve` and `resolve_craftables` are embedded as
  structurally recursive functions on an explicit recursion-depth argument
  (`resolveF`, `resolve_craftablesF`); the exported `resolve` and
  `resolve_craftables` apply them at a depth that is proved sufficient
  (theorems `resolveF_congr`, `resolve_eq`, ...), which is the formal
  counterpart of the Python termination argument via the path-local
  `visited` set.  Python passes `visited.copy()` into every child call and
  mutates only the local copy, so pure value passing of a `Finset` is an
  exact model.
* The module-level global `craftable_index()` is a parameter `cidx` of the
  resolvers; in the application it is instantiated with
  `craftable_index recipes` for the same loaded recipe dict.
-/

/-- Entity reference carried inside a recipe stack:
the JSON object `{"id": ..., "name": ...}`. -/
structure Entity where
  id : String
  name : String
deriving DecidableEq

/-- One element of a recipe's `outputs` or `itemIngredients` list:
an entity reference together with a per-craft count. -/
structure Stack where
  entity : Entity
  count : Nat
deriving DecidableEq

/-- A recipe record, with the fields the engine reads:
`outputs`, `itemIngredients`, `name`, and (for the UI crafting-info lookup)
`skillRequired` (its `name` sub-field, absent modelled as `none`) and
`skillDifficulty`. -/
structure Recipe where
  id : String
  name : String
  outputs : List Stack
  itemIngredients : List Stack
  skillRequired : Option String
  skillDifficulty : Option Nat
deriving DecidableEq

/-- An item record, with the fields the engine reads: display `name` and
`categoryIds` (used by the emoji picker). -/
structure Item where
  id : String
  name : String
  categoryIds : List String
deriving DecidableEq

/-- Breakdown dict mapping item id to required quantity, in insertion order. -/
abbrev Breakdown := List (String × Nat)

/-- Lookup in an association list with Python-dict overwrite semantics: the
last binding of a key wins, `none` when the key is absent. -/
def pyGet {α : Type} (l : List (String × α)) (k : String) : Option α :=
  l.foldl (fun acc p => if p.1 = k then some p.2 else acc) none

/-- Lookup of `recipes.get(recipe_id)` where the recipe dict is keyed by the
`id` field (`{entry["id"]: entry for entry in data}`, last entry wins). -/
def getRecipe (recipes : List Recipe) (rid : String) : Option Recipe :=
  recipes.foldl (fun acc r => if r.id = rid then some r else acc) none

/-- Lookup of `items.get(item_id)` for the merged item dict keyed by id. -/
def pyGetItem (items : List Item) (k : String) : Option Item :=
  items.foldl (fun acc it => if it.id = k then some it else acc) none

/-- Value of `items.get(item_id, {}).get("name", "")`. -/
def itemName (items : List Item) (k : String) : String :=
  match pyGetItem items k with
  | some it => it.name
  | none => ""

/-- Contiguous-sublist test on character lists, the semantics of the Python
substring operator `needle in hay`. -/
def containsSub (needle : List Char) : List Char → Bool
  | [] => needle.isEmpty
  | c :: rest => needle.isPrefixOf (c :: rest) || containsSub needle rest

/-- Test `needle in hay.lower()` as used by the terminal-override predicates.
Lowering is done characterwise with `Char.toLower`, which agrees with the
Python `str.lower` on the ASCII item names this predicate is applied to. -/
def pyInLower (needle : String) (hay : String) : Bool :=
  containsSub needle.toList (hay.toList.map Char.toLower)

/-- Terminal override `is_sand_item`:
`"sand" in items.get(item_id, {}).get("name", "").lower()`. -/
def is_sand_item (items : List Item) (item_id : String) : Bool :=
  pyInLower ("sand") (itemName items item_id)

/-- Terminal override `is_charcoal_item`:
`"charcoal" in items.get(item_id, {}).get("name", "").lower()`. -/
def is_charcoal_item (items : List Item) (item_id : String) : Bool :=
  pyInLower ("charcoal") (itemName items item_id)

/-- The pairs written into the `craftable_index()` dict, in write order:
`for recipe_id, recipe in load_recipes().items(): for out in
recipe.get("outputs", []): index[out["entity"]["id"]] = recipe_id`.
With `pyGet` (last write wins) this is exactly the Python dict. -/
def craftable_index (recipes : List Recipe) : List (String × String) :=
  recipes.foldl (fun acc r => acc ++ r.outputs.map (fun o => (o.entity.id, r.id))) []

/-- Key set of an output index, used to bound the recursion depth: every
recursive call of the resolvers happens at an item that is a key of `cidx`
and is freshly inserted into `visited`. -/
def outKeys (cidx : List (String × String)) : Finset String :=
  (cidx.map Prod.fst).toFinset

/-- The `crafts_needed = (needed + output_stack - 1) // output_stack` line,
ceiling division on naturals. -/
def crafts_needed (needed output_stack : Nat) : Nat :=
  (needed + output_stack - 1) / output_stack

/-- One step of `breakdown[mat] = breakdown.get(mat, 0) + qty`: add `v` to the
existing binding of `k`, or append a new binding at the end (dict insertion
order). -/
def updAdd : Breakdown → String → Nat → Breakdown
  | [], k, v => [(k, v)]
  | p :: rest, k, v =>
      if p.1 = k then (p.1, p.2 + v) :: rest else p :: updAdd rest k v

/-- The merge loop `for mat, qty in sub_tree.items(): breakdown[mat] = ...`. -/
def mergeDict (acc sub : Breakdown) : Breakdown :=
  sub.foldl (fun a p => updAdd a p.1 p.2) acc

/-- The raw-material resolver `resolve`, with an explicit recursion-depth
argument in place of the Python call stack.  Branches mirror the source
line by line: visited guard, sand/charcoal overrides, uncraftable item,
missing recipe, recipe without outputs, then the ingredient loop that
resolves each ingredient with a copy of the current path and merges the
sub-breakdowns into the accumulator. -/
def resolveF (items : List Item) (cidx : List (String × String))
    (recipes : List Recipe) :
    Nat → Finset String → Nat → String → Breakdown
  | 0, _, _, _ => []
  | fuel + 1, visited, needed, item_id =>
    if item_id ∈ visited then []
    else if is_sand_item items item_id || is_charcoal_item items item_id then
      [(item_id, needed)]
    else
      match pyGet cidx item_id with
      | none => [(item_id, needed)]
      | some rid =>
        match getRecipe recipes rid with
        | none => [(item_id, needed)]
        | some recipe =>
          match recipe.outputs with
          | [] => [(item_id, needed)]
          | out0 :: _ =>
            let k := crafts_needed needed out0.count
            recipe.itemIngredients.foldl
              (fun breakdown ing =>
                mergeDict breakdown
                  (resolveF items cidx recipes fuel (insert item_id visited)
                    (ing.count * k) ing.entity.id))
              []

/-- The resolver applied at a depth that always suffices (see
`resolveF_congr`): one more than the number of index keys not yet on the
current path. -/
def resolve (items : List Item) (cidx : List (String × String))
    (recipes : List Recipe) (visited : Finset String) (needed : Nat)
    (item_id : String) : Breakdown :=
  resolveF items cidx recipes ((outKeys cidx \ visited).card + 1) visited needed item_id

/-- The intermediate-craftable resolver `resolve_craftables`, depth-explicit
like `resolveF`.  Overrides and uncraftable or malformed entries yield the
empty dict; a non-root craftable returns `{item_id: crafts_needed}` without
recursing; the root expands its ingredient list, skipping ingredients whose
id is falsy (`if not ing_id: continue`; in this field-complete model the
only falsy id is the empty string). -/
def resolve_craftablesF (items : List Item) (cidx : List (String × String))
    (recipes : List Recipe) :
    Nat → Finset String → Nat → Bool → String → Breakdown
  | 0, _, _, _, _ => []
  | fuel + 1, visited, needed, isRoot, item_id =>
    if item_id ∈ visited then []
    else if is_sand_item items item_id || is_charcoal_item items item_id then []
    else
      match pyGet cidx item_id with
      | none => []
      | some rid =>
        match getRecipe recipes rid with
        | none => []
        | some recipe =>
          match recipe.outputs with
          | [] => []
          | out0 :: _ =>
            let k := crafts_needed needed out0.count
            if isRoot then
              recipe.itemIngredients.foldl
                (fun breakdown ing =>
                  if ing.entity.id = "" then breakdown
                  else
                    mergeDict breakdown
                      (resolve_craftablesF items cidx recipes fuel
                        (insert item_id visited) (ing.count * k) false
                        ing.entity.id))
                []
            else [(item_id, k)]

/-- The craftables resolver at a sufficient depth, like `resolve`. -/
def resolve_craftables (items : List Item) (cidx : List (String × String))
    (recipes : List Recipe) (visited : Finset String) (needed : Nat)
    (isRoot : Bool) (item_id : String) : Breakdown :=
  resolve_craftablesF items cidx recipes ((outKeys cidx \ visited).card + 1)
    visited needed isRoot item_id

/-- Failure outcomes of the embedded `render_tree`: `keyErr` models the
`recipes[craft_index[item_id]]` subscript raising on a missing recipe id,
`outOfDepth` marks that the recursion is still running at the given depth
(the source has no depth bound at all, so on cyclic data every finite depth
ends in `outOfDepth`). -/
inductive RenderErr where
  | keyErr : RenderErr
  | outOfDepth : RenderErr
deriving DecidableEq

/-- Python `"  " * indent`. -/
def strTimes (s : String) (n : Nat) : String :=
  String.join (List.replicate n s)

/-- The crafting-tree renderer `render_tree(item_id, recipes, indent)`, made
depth-explicit.  Unlike the resolvers, the source function takes no
`visited` argument and recurses into every craftable ingredient
unconditionally, so the only bound on its recursion is the call stack;
here that is the explicit depth argument. -/
def render_tree (cidx : List (String × String)) (recipes : List Recipe) :
    Nat → String → Nat → Except RenderErr String
  | 0, _, _ => .error .outOfDepth
  | fuel + 1, item_id, indent =>
    let spacer := strTimes ("  ") indent
    match pyGet cidx item_id with
    | none => .ok (spacer ++ "- " ++ item_id ++ " (raw)" ++ "\n")
    | some rid =>
      match getRecipe recipes rid with
      | none => .error .keyErr
      | some recipe =>
        recipe.itemIngredients.foldlM
          (fun s ing => do
            let sub ← render_tree cidx recipes fuel ing.entity.id (indent + 2)
            pure (s ++ spacer ++ "  " ++ ing.entity.name ++ " x" ++
              toString ing.count ++ "\n" ++ sub))
          (spacer ++ "- " ++ recipe.name ++ "\n")

/-- JSON-level entity reference whose `id` key may be absent, for modelling
the unguarded subscripts of `resolve` on malformed ingredient records. -/
structure EntityJ where
  id : Option String
deriving DecidableEq

/-- JSON-level ingredient stack whose `entity` and `count` keys may be
absent.  `resolve` reads them with `ing["entity"]["id"]` and
`ing["count"]`, which raise `KeyError` when a key is missing. -/
structure StackJ where
  entity : Option EntityJ
  count : Option Nat
deriving DecidableEq

/-- Recipe record over JSON-level ingredient stacks.  Outputs are kept
field-complete: the output index is built from them at module load, before
any resolution call, so their malformation is outside the resolution-call
claims. -/
structure RecipeJ where
  id : String
  name : String
  outputs : List Stack
  itemIngredients : List StackJ
deriving DecidableEq

/-- Recipe-dict lookup for JSON-level recipes, as `getRecipe`. -/
def getRecipeJ (recipes : List RecipeJ) (rid : String) : Option RecipeJ :=
  recipes.foldl (fun acc r => if r.id = rid then some r else acc) none

/-- Output index of a JSON-level recipe list, as `craftable_index`. -/
def craftable_indexJ (recipes : List RecipeJ) : List (String × String) :=
  recipes.foldl (fun acc r => acc ++ r.outputs.map (fun o => (o.entity.id, r.id))) []

/-- The raw-material resolver over the JSON-level representation, with the
Python subscript semantics made explicit: a missing `entity`, `id` or
`count` key in an ingredient raises `KeyError` (modelled as
`Except.error`), exactly as `resolve` lines 114-117 of the source, which
index those keys directly instead of using `.get`. -/
def resolveJF (items : List Item) (cidx : List (String × String))
    (recipes : List RecipeJ) :
    Nat → Finset String → Nat → String → Except String Breakdown
  | 0, _, _, _ => .ok []
  | fuel + 1, visited, needed, item_id =>
    if item_id ∈ visited then .ok []
    else if is_sand_item items item_id || is_charcoal_item items item_id then
      .ok [(item_id, needed)]
    else
      match pyGet cidx item_id with
      | none => .ok [(item_id, needed)]
      | some rid =>
        match getRecipeJ recipes rid with
        | none => .ok [(item_id, needed)]
        | some recipe =>
          match recipe.outputs with
          | [] => .ok [(item_id, needed)]
          | out0 :: _ =>
            let k := crafts_needed needed out0.count
            recipe.itemIngredients.foldlM
              (fun breakdown ing => do
                let ent ← match ing.entity with
                  | some e => Except.ok e
                  | none => Except.error ("KeyError: entity")
                let ing_id ← match ent.id with
                  | some s => Except.ok s
                  | none => Except.error ("KeyError: id")
                let qty ← match ing.count with
                  | some c => Except.ok c
                  | none => Except.error ("KeyError: count")
                let sub ← resolveJF items cidx recipes fuel
                  (insert item_id visited) (qty * k) ing_id
                Except.ok (mergeDict breakdown sub))
              []

/-- The JSON-level resolver at the sufficient depth, as `resolve`. -/
def resolveJ (items : List Item) (cidx : List (String × String))
    (recipes : List RecipeJ) (visited : Finset String) (needed : Nat)
    (item_id : String) : Except String Breakdown :=
  resolveJF items cidx recipes ((outKeys cidx \ visited).card + 1) visited
    needed item_id

/-- The module-level `emoji_map` dict. -/
def emoji_map : List (String × String) :=
  [("flowers", "🌸"), ("herbs", "🌿"), ("plants", "🌱"), ("trees", "🌲"),
   ("wood", "🪵"), ("minerals", "🪨"), ("gemstones", "💎"),
   ("alchemy", "🧪"), ("glass", "🧴"), ("metal", "⚒️"),
   ("weaving", "🧵"), ("cooking", "🍳"),
   ("potion", "⚗️"), ("consumable", "🧴"),
   ("spelltype", "✨"), ("enchanting", "🔮"),
   ("housing", "🏠"), ("furniture", "🪑"),
   ("default", "📦")]

/-- The emoji picker `get_item_emoji`: the emoji of the first category id
found in `emoji_map`, defaulting to the package emoji. -/
def get_item_emoji (item : Item) : String :=
  match item.categoryIds.find? (fun c => (pyGet emoji_map c).isSome) with
  | some c =>
    match pyGet emoji_map c with
    | some e => e
    | none => "📦"
  | none => "📦"

/-- Plain dict assignment `d[k] = v`: overwrite the binding of `k`, or append
a new one, used by `prettify_breakdown`. -/
def updSet : List (String × Nat) → String → Nat → List (String × Nat)
  | [], k, v => [(k, v)]
  | p :: rest, k, v =>
      if p.1 = k then (k, v) :: rest else p :: updSet rest k v

/-- Lexicographic less-or-equal on character lists, the order `sorted` uses
on the distinct keys of a dict. -/
def charListLe : List Char → List Char → Bool
  | [], _ => true
  | _ :: _, [] => false
  | a :: as, b :: bs => if a = b then charListLe as bs else decide (a < b)

/-- Key comparison for `sorted(pretty.items())`. -/
def strLe (a b : String) : Bool :=
  charListLe a.toList b.toList

/-- Sorted insertion of a pair by key. -/
def insertSorted (p : String × Nat) : List (String × Nat) → List (String × Nat)
  | [] => [p]
  | q :: rest => if strLe p.1 q.1 then p :: q :: rest else q :: insertSorted p rest

/-- Python `dict(sorted(pretty.items()))`: the pairs sorted by key (the keys
of a dict are distinct, so tuple order and key order coincide and
stability is irrelevant). -/
def sortPairs : List (String × Nat) → List (String × Nat)
  | [] => []
  | p :: rest => insertSorted p (sortPairs rest)

/-- The display formatter `prettify_breakdown`: re-key a breakdown by
`emoji + " " + name`, then sort.  The Python body indexes `items[item_id]`
directly, so a breakdown id absent from the item dict is a failure,
modelled as `none`. -/
def prettify_breakdown (breakdown : Breakdown) (items : List Item) :
    Option (List (String × Nat)) :=
  (breakdown.foldlM
    (fun pretty p =>
      (pyGetItem items p.1).map
        (fun item => updSet pretty (get_item_emoji item ++ " " ++ item.name) p.2))
    []).map sortPairs

/-- The metadata lookup `get_recipe_crafting_info`: `none` when the item has
no producing recipe; otherwise the required skill name (default
`"Unknown"`) and the skill difficulty (`none` rendering as `"N/A"`).  The
source indexes `recipes[recipe_id]` directly; that failure is collapsed
into `none` here and cannot occur when `cidx` is the index of the same
recipe dict. -/
def get_recipe_crafting_info (cidx : List (String × String))
    (recipes : List Recipe) (item_id : String) : Option (String × Option Nat) :=
  match pyGet cidx item_id with
  | none => none
  | some rid =>
    match getRecipe recipes rid with
    | none => none
    | some recipe => some (recipe.skillRequired.getD ("Unknown"), recipe.skillDifficulty)

/-- The raw-materials table of the UI (lines 351-358): resolve the target
for `needed = q`, prettify, then emit one row per entry whose displayed
quantity is `qty * q` again. -/
def rawRowsUI (items : List Item) (cidx : List (String × String))
    (recipes : List Recipe) (target : String) (q : Nat) :
    Option (List (String × Nat)) :=
  (prettify_breakdown (resolve items cidx recipes ∅ q target) items).map
    (fun pretty => pretty.map (fun p => (p.1, p.2 * q)))

/-- The intermediate-crafting table of the UI (lines 362-373): for each
craftable intermediate, a row of display name, displayed quantity
`qty * q`, skill name and required level. -/
def craftRowsUI (items : List Item) (cidx : List (String × String))
    (recipes : List Recipe) (target : String) (q : Nat) :
    Option (List (String × Nat × String × Option Nat)) :=
  (resolve_craftables items cidx recipes ∅ q true target).foldlM
    (fun rows p => do
      let info ← get_recipe_crafting_info cidx recipes p.1
      let item ← pyGetItem items p.1
      pure (rows ++ [(get_item_emoji item ++ " " ++ item.name, p.2 * q, info.1, info.2)]))
    []

/-- Dict read `d.get(m, 0)` on a breakdown: the value at the first (in a
dict, only) binding of `m`, default 0. -/
def lookupD : Breakdown → String → Nat
  | [], _ => 0
  | p :: rest, m => if p.1 = m then p.2 else lookupD rest m

/-- Total weight of a key across all entries of a pair list; on a breakdown
with distinct keys this equals `lookupD` (`entryWeight_eq_lookupD`). -/
def entryWeight (d : Breakdown) (m : String) : Nat :=
  (d.map (fun p => if p.1 = m then p.2 else 0)).sum

/-- Wood item of the concrete catalog of the spec scenario. -/
def woodItem : Item := { id := "wood", name := "Wood", categoryIds := ["wood"] }

/-- Plank item of the concrete catalog. -/
def plankItem : Item := { id := "plank", name := "Plank", categoryIds := ["wood"] }

/-- Table item of the concrete catalog. -/
def tableItem : Item := { id := "table", name := "Table", categoryIds := ["furniture"] }

/-- Recipe R1: one plank from two wood. -/
def recipeR1 : Recipe :=
  { id := "R1", name := "Plank", outputs := [⟨⟨"plank", "Plank"⟩, 1⟩],
    itemIngredients := [⟨⟨"wood", "Wood"⟩, 2⟩],
    skillRequired := none, skillDifficulty := none }

/-- Recipe R2: one table from four plank. -/
def recipeR2 : Recipe :=
  { id := "R2", name := "Table", outputs := [⟨⟨"table", "Table"⟩, 1⟩],
    itemIngredients := [⟨⟨"plank", "Plank"⟩, 4⟩],
    skillRequired := none, skillDifficulty := none }

/-- Item list of the wood/plank/table catalog. -/
def wtItems : List Item := [woodItem, plankItem, tableItem]

/-- Recipe list of the wood/plank/table catalog. -/
def wtRecipes : List Recipe := [recipeR1, recipeR2]

/-- Output index of the wood/plank/table catalog. -/
def wtIdx : List (String × String) := craftable_index wtRecipes

/-- C1: on the spec catalog (wood terminal, R1: 1 plank from 2 wood,
R2: 1 table from 4 plank), `resolve("table", 1)` returns exactly
`{wood: 8}` and `resolve_craftables("table", 1)` returns exactly
`{plank: 4}`. -/
theorem claim1 :
    resolve wtItems wtIdx wtRecipes ∅ 1 "table" = [("wood", 8)] ∧
      resolve_craftables wtItems wtIdx wtRecipes ∅ 1 true "table" = [("plank", 4)] := by
  constructor
  · rfl
  · rfl

/-- Items of the cyclic catalog: Alpha requires Beta, Beta requires Alpha. -/
def cycItems : List Item :=
  [{ id := "A", name := "Alpha", categoryIds := [] },
   { id := "B", name := "Beta", categoryIds := [] }]

/-- Recipe producing Alpha from Beta. -/
def recipeRA : Recipe :=
  { id := "RA", name := "Alpha", outputs := [⟨⟨"A", "Alpha"⟩, 1⟩],
    itemIngredients := [⟨⟨"B", "Beta"⟩, 1⟩],
    skillRequired := none, skillDifficulty := none }

/-- Recipe producing Beta from Alpha. -/
def recipeRB : Recipe :=
  { id := "RB", name := "Beta", outputs := [⟨⟨"B", "Beta"⟩, 1⟩],
    itemIngredients := [⟨⟨"A", "Alpha"⟩, 1⟩],
    skillRequired := none, skillDifficulty := none }

/-- Recipes of the cyclic catalog. -/
def cycRecipes : List Recipe := [recipeRA, recipeRB]

/-- Output index of the cyclic catalog. -/
def cycIdx : List (String × String) := craftable_index cycRecipes

/-- Items of the three-level chain catalog: raw Ore, Gear from Ore, Frame
from Gear, Cart from Frame. -/
def chainItems : List Item :=
  [{ id := "ore", name := "Ore", categoryIds := ["minerals"] },
   { id := "gear", name := "Gear", categoryIds := ["metal"] },
   { id := "frame", name := "Frame", categoryIds := ["metal"] },
   { id := "cart", name := "Cart", categoryIds := ["furniture"] }]

/-- Recipe producing Gear from Ore. -/
def recipeRG : Recipe :=
  { id := "RG", name := "Gear", outputs := [⟨⟨"gear", "Gear"⟩, 1⟩],
    itemIngredients := [⟨⟨"ore", "Ore"⟩, 1⟩],
    skillRequired := none, skillDifficulty := none }

/-- Recipe producing Frame from two Gear. -/
def recipeRF : Recipe :=
  { id := "RF", name := "Frame", outputs := [⟨⟨"frame", "Frame"⟩, 1⟩],
    itemIngredients := [⟨⟨"gear", "Gear"⟩, 2⟩],
    skillRequired := none, skillDifficulty := none }

/-- Recipe producing Cart from three Frame. -/
def recipeRC : Recipe :=
  { id := "RC", name := "Cart", outputs := [⟨⟨"cart", "Cart"⟩, 1⟩],
    itemIngredients := [⟨⟨"frame", "Frame"⟩, 3⟩],
    skillRequired := none, skillDifficulty := none }

/-- Recipes of the chain catalog. -/
def chainRecipes : List Recipe := [recipeRG, recipeRF, recipeRC]

/-- Output index of the chain catalog. -/
def chainIdx : List (String × String) := craftable_index chainRecipes

/-- Items of the override catalog: Sand has a producing recipe from
Limestone but matches the sand override. -/
def sandItems : List Item :=
  [{ id := "sand", name := "Sand", categoryIds := ["minerals"] },
   { id := "limestone", name := "Limestone", categoryIds := ["minerals"] }]

/-- Recipe nominally producing Sand from Limestone. -/
def recipeRS : Recipe :=
  { id := "RS", name := "Sand", outputs := [⟨⟨"sand", "Sand"⟩, 1⟩],
    itemIngredients := [⟨⟨"limestone", "Limestone"⟩, 4⟩],
    skillRequired := none, skillDifficulty := none }

/-- Recipes of the override catalog: Sand is nominally craftable. -/
def sandRecipes : List Recipe := [recipeRS]

/-- Output index of the override catalog. -/
def sandIdx : List (String × String) := craftable_index sandRecipes

/-- Items of the batch-size catalog: Brick crafted five per batch from
three Clay. -/
def batchItems : List Item :=
  [{ id := "clay", name := "Clay", categoryIds := ["minerals"] },
   { id := "brick", name := "Brick", categoryIds := ["minerals"] }]

/-- Recipe producing five Brick from three Clay. -/
def recipeRB5 : Recipe :=
  { id := "RB5", name := "Brick", outputs := [⟨⟨"brick", "Brick"⟩, 5⟩],
    itemIngredients := [⟨⟨"clay", "Clay"⟩, 3⟩],
    skillRequired := none, skillDifficulty := none }

/-- Recipes of the batch-size catalog. -/
def batchRecipes : List Recipe := [recipeRB5]

/-- Output index of the batch-size catalog. -/
def batchIdx : List (String × String) := craftable_index batchRecipes

/-- Item of the dangling-index catalog. -/
def ghostItems : List Item :=
  [{ id := "box", name := "Box", categoryIds := [] }]

/-- Output index entry pointing at a recipe id absent from the catalog. -/
def ghostIdx : List (String × String) := [("box", "ghost")]

/-- Recipe list of the dangling-index catalog: empty, so the index entry for
`box` names a recipe that does not exist. -/
def ghostRecipes : List Recipe := []

/-- Output index of the outputless catalog. -/
def noOutIdx : List (String × String) := [("box", "R0")]

/-- Recipe list of the outputless catalog: `R0` exists but declares no
outputs. -/
def noOutRecipes : List Recipe :=
  [{ id := "R0", name := "Broken", outputs := [],
     itemIngredients := [⟨⟨"box", "Box"⟩, 1⟩],
     skillRequired := none, skillDifficulty := none }]

/-- JSON-level catalog whose recipe has an ingredient record without a
`count` key. -/
def jItems : List Item :=
  [{ id := "jbox", name := "Box", categoryIds := [] },
   { id := "y", name := "Widget", categoryIds := [] }]

/-- The malformed JSON-level recipe list. -/
def jRecipes : List RecipeJ :=
  [{ id := "RJ", name := "Box", outputs := [⟨⟨"jbox", "Box"⟩, 1⟩],
     itemIngredients := [{ entity := some { id := some "y" }, count := none }] }]

/-- Output index of the malformed JSON-level catalog. -/
def jIdx : List (String × String) := craftable_indexJ jRecipes

/-- Generalized accumulator form: a successful last-wins fold lookup found
its key in the list, unless the accumulator already carried the answer. -/
theorem foldl_lastWins_mem {α : Type} (k : String) :
    ∀ (l : List (String × α)) (acc : Option α) (v : α),
      l.foldl (fun a p => if p.1 = k then some p.2 else a) acc = some v →
      k ∈ l.map Prod.fst ∨ acc = some v := by
  intro l
  induction l with
  | nil =>
    intro acc v h
    right
    exact h
  | cons p rest ih =>
    intro acc v h
    rw [List.foldl_cons] at h
    rcases ih _ _ h with h1 | h2
    · left
      simp only [List.map_cons, List.mem_cons]
      exact Or.inr h1
    · by_cases hp : p.1 = k
      · left
        simp only [List.map_cons, List.mem_cons]
        exact Or.inl hp.symm
      · right
        rw [if_neg hp] at h2
        exact h2

/-- A successful `pyGet` lookup means the key occurs among the keys of the
association list. -/
theorem pyGet_mem_keys {α : Type} {l : List (String × α)} {k : String} {v : α}
    (h : pyGet l k = some v) : k ∈ l.map Prod.fst := by
  unfold pyGet at h
  rcases foldl_lastWins_mem k l none v h with h1 | h2
  · exact h1
  · exact absurd h2 (by simp)

/-- A key found in an output index belongs to its key set. -/
theorem pyGet_mem_outKeys {cidx : List (String × String)} {k rid : String}
    (h : pyGet cidx k = some rid) : k ∈ outKeys cidx := by
  unfold outKeys
  rw [List.mem_toFinset]
  exact pyGet_mem_keys h

/-- Inserting a fresh key of `s` into `visited` strictly shrinks the set of
keys not yet on the path: the termination measure of the resolvers. -/
theorem card_sdiff_insert_lt {s v : Finset String} {i : String} (hi : i ∈ s)
    (hv : i ∉ v) : (s \ insert i v).card < (s \ v).card := by
  have hEq : s \ insert i v = (s \ v).erase i := by
    ext x
    simp only [Finset.mem_sdiff, Finset.mem_insert, Finset.mem_erase]
    tauto
  rw [hEq]
  apply Finset.card_erase_lt_of_mem
  simp only [Finset.mem_sdiff]
  exact ⟨hi, hv⟩

/-- Fold functions that agree on the elements of the list fold alike. -/
theorem foldl_ext {α β : Type} (f g : β → α → β) :
    ∀ (l : List α) (b : β), (∀ x ∈ l, ∀ acc, f acc x = g acc x) →
      l.foldl f b = l.foldl g b := by
  intro l
  induction l with
  | nil =>
    intro b _
    rfl
  | cons x rest ih =>
    intro b h
    simp only [List.foldl_cons]
    rw [h x (by simp)]
    exact ih _ (fun y hy acc => h y (by simp [hy]) acc)

/-- Depth-indifference of `resolveF`: any two depths larger than the number
of index keys not yet on the path give the same result.  This is the
termination argument of the source: every recursive call inserts a fresh
index key into the path copy, so the recursion depth is bounded. -/
theorem resolveF_congr (items : List Item) (cidx : List (String × String))
    (recipes : List Recipe) :
    ∀ f g (visited : Finset String) (needed : Nat) (item_id : String),
      (outKeys cidx \ visited).card < f → (outKeys cidx \ visited).card < g →
      resolveF items cidx recipes f visited needed item_id =
        resolveF items cidx recipes g visited needed item_id := by
  intro f
  induction f with
  | zero =>
    intro g v n i hf _
    omega
  | succ a ih =>
    intro g v n i hf hg
    cases g with
    | zero => omega
    | succ b =>
      simp only [resolveF]
      by_cases hv : i ∈ v
      · rw [if_pos hv, if_pos hv]
      rw [if_neg hv, if_neg hv]
      by_cases hs : (is_sand_item items i || is_charcoal_item items i) = true
      · rw [if_pos hs, if_pos hs]
      rw [if_neg hs, if_neg hs]
      cases hidx : pyGet cidx i with
      | none => rfl
      | some rid =>
        dsimp only
        cases hrec : getRecipe recipes rid with
        | none => rfl
        | some r =>
          dsimp only
          cases houts : r.outputs with
          | nil => rfl
          | cons o os =>
            dsimp only
            have hiO : i ∈ outKeys cidx := pyGet_mem_outKeys hidx
            have hlt : (outKeys cidx \ insert i v).card < (outKeys cidx \ v).card :=
              card_sdiff_insert_lt hiO hv
            exact foldl_ext _ _ _ _ (fun ing _ acc => by
              rw [ih b (insert i v) (ing.count * crafts_needed n o.count)
                ing.entity.id (by omega) (by omega)])

/-- Depth-indifference of `resolve_craftablesF`, as `resolveF_congr`. -/
theorem resolve_craftablesF_congr (items : List Item)
    (cidx : List (String × String)) (recipes : List Recipe) :
    ∀ f g (visited : Finset String) (needed : Nat) (isRoot : Bool)
      (item_id : String),
      (outKeys cidx \ visited).card < f → (outKeys cidx \ visited).card < g →
      resolve_craftablesF items cidx recipes f visited needed isRoot item_id =
        resolve_craftablesF items cidx recipes g visited needed isRoot item_id := by
  intro f
  induction f with
  | zero =>
    intro g v n ir i hf _
    omega
  | succ a ih =>
    intro g v n ir i hf hg
    cases g with
    | zero => omega
    | succ b =>
      simp only [resolve_craftablesF]
      by_cases hv : i ∈ v
      · rw [if_pos hv, if_pos hv]
      rw [if_neg hv, if_neg hv]
      by_cases hs : (is_sand_item items i || is_charcoal_item items i) = true
      · rw [if_pos hs, if_pos hs]
      rw [if_neg hs, if_neg hs]
      cases hidx : pyGet cidx i with
      | none => rfl
      | some rid =>
        dsimp only
        cases hrec : getRecipe recipes rid with
        | none => rfl
        | some r =>
          dsimp only
          cases houts : r.outputs with
          | nil => rfl
          | cons o os =>
            dsimp only
            cases ir with
            | false => rfl
            | true =>
              have hiO : i ∈ outKeys cidx := pyGet_mem_outKeys hidx
              have hlt : (outKeys cidx \ insert i v).card < (outKeys cidx \ v).card :=
                card_sdiff_insert_lt hiO hv
              simp only [if_true]
              refine foldl_ext _ _ _ _ (fun ing _ acc => ?_)
              by_cases hz : ing.entity.id = ""
              · rw [if_pos hz, if_pos hz]
              · rw [if_neg hz, if_neg hz,
                  ih b (insert i v) (ing.count * crafts_needed n o.count) false
                    ing.entity.id (by omega) (by omega)]

/-- Unfolding equation of `resolve`: the exported resolver satisfies exactly
the recursion of the source, with each ingredient resolved against a copy
of the current path extended by the current item. -/
theorem resolve_eq (items : List Item) (cidx : List (String × String))
    (recipes : List Recipe) (v : Finset String) (n : Nat) (i : String) :
    resolve items cidx recipes v n i =
      if i ∈ v then []
      else if is_sand_item items i || is_charcoal_item items i then [(i, n)]
      else
        match pyGet cidx i with
        | none => [(i, n)]
        | some rid =>
          match getRecipe recipes rid with
          | none => [(i, n)]
          | some recipe =>
            match recipe.outputs with
            | [] => [(i, n)]
            | out0 :: _ =>
              recipe.itemIngredients.foldl
                (fun breakdown ing =>
                  mergeDict breakdown
                    (resolve items cidx recipes (insert i v)
                      (ing.count * crafts_needed n out0.count) ing.entity.id))
                [] := by
  have hdef : resolve items cidx recipes v n i =
      resolveF items cidx recipes ((outKeys cidx \ v).card + 1) v n i := rfl
  rw [hdef]
  simp only [resolveF]
  by_cases hv : i ∈ v
  · rw [if_pos hv, if_pos hv]
  rw [if_neg hv, if_neg hv]
  by_cases hs : (is_sand_item items i || is_charcoal_item items i) = true
  · rw [if_pos hs, if_pos hs]
  rw [if_neg hs, if_neg hs]
  cases hidx : pyGet cidx i with
  | none => rfl
  | some rid =>
    dsimp only
    cases hrec : getRecipe recipes rid with
    | none => rfl
    | some r =>
      dsimp only
      cases houts : r.outputs with
      | nil => rfl
      | cons o os =>
        dsimp only
        have hiO : i ∈ outKeys cidx := pyGet_mem_outKeys hidx
        have hlt : (outKeys cidx \ insert i v).card < (outKeys cidx \ v).card :=
          card_sdiff_insert_lt hiO hv
        refine foldl_ext _ _ _ _ (fun ing _ acc => ?_)
        rw [resolveF_congr items cidx recipes ((outKeys cidx \ v).card)
          ((outKeys cidx \ insert i v).card + 1) (insert i v)
          (ing.count * crafts_needed n o.count) ing.entity.id (by omega) (by omega)]
        rfl

/-- Unfolding equation of `resolve_craftables`, as `resolve_eq`. -/
theorem resolve_craftables_eq (items : List Item)
    (cidx : List (String × String)) (recipes : List Recipe)
    (v : Finset String) (n : Nat) (isRoot : Bool) (i : String) :
    resolve_craftables items cidx recipes v n isRoot i =
      if i ∈ v then []
      else if is_sand_item items i || is_charcoal_item items i then []
      else
        match pyGet cidx i with
        | none => []
        | some rid =>
          match getRecipe recipes rid with
          | none => []
          | some recipe =>
            match recipe.outputs with
            | [] => []
            | out0 :: _ =>
              if isRoot then
                recipe.itemIngredients.foldl
                  (fun breakdown ing =>
                    if ing.entity.id = "" then breakdown
                    else
                      mergeDict breakdown
                        (resolve_craftables items cidx recipes (insert i v)
                          (ing.count * crafts_needed n out0.count) false
                          ing.entity.id))
                  []
              else [(i, crafts_needed n out0.count)] := by
  have hdef : resolve_craftables items cidx recipes v n isRoot i =
      resolve_craftablesF items cidx recipes ((outKeys cidx \ v).card + 1) v n
        isRoot i := rfl
  rw [hdef]
  simp only [resolve_craftablesF]
  by_cases hv : i ∈ v
  · rw [if_pos hv, if_pos hv]
  rw [if_neg hv, if_neg hv]
  by_cases hs : (is_sand_item items i || is_charcoal_item items i) = true
  · rw [if_pos hs, if_pos hs]
  rw [if_neg hs, if_neg hs]
  cases hidx : pyGet cidx i with
  | none => rfl
  | some rid =>
    dsimp only
    cases hrec : getRecipe recipes rid with
    | none => rfl
    | some r =>
      dsimp only
      cases houts : r.outputs with
      | nil => rfl
      | cons o os =>
        dsimp only
        cases isRoot with
        | false => rfl
        | true =>
          have hiO : i ∈ outKeys cidx := pyGet_mem_outKeys hidx
          have hlt : (outKeys cidx \ insert i v).card < (outKeys cidx \ v).card :=
            card_sdiff_insert_lt hiO hv
          simp only [if_true]
          refine foldl_ext _ _ _ _ (fun ing _ acc => ?_)
          by_cases hz : ing.entity.id = ""
          · rw [if_pos hz, if_pos hz]
          · rw [if_neg hz, if_neg hz,
              resolve_craftablesF_congr items cidx recipes ((outKeys cidx \ v).card)
                ((outKeys cidx \ insert i v).card + 1) (insert i v)
                (ing.count * crafts_needed n o.count) false ing.entity.id
                (by omega) (by omega)]
            rfl

/-- Adding `v` at key `k` raises the looked-up value at `m` by `v` exactly
when `k = m`. -/
theorem lookupD_updAdd (d : Breakdown) (k : String) (v : Nat) (m : String) :
    lookupD (updAdd d k v) m = lookupD d m + (if k = m then v else 0) := by
  induction d with
  | nil =>
    simp [updAdd, lookupD]
  | cons p rest ih =>
    by_cases hp : p.1 = k
    · simp only [updAdd, if_pos hp, lookupD]
      by_cases hm : p.1 = m
      · have hkm : k = m := hp ▸ hm
        rw [if_pos hm, if_pos hm, if_pos hkm]
      · have hkm : ¬k = m := fun he => hm (hp ▸ he)
        rw [if_neg hm, if_neg hm, if_neg hkm]
        omega
    · simp only [updAdd, if_neg hp, lookupD]
      by_cases hm : p.1 = m
      · have hkm : ¬k = m := fun he => hp (hm ▸ he ▸ rfl)
        rw [if_pos hm, if_pos hm, if_neg hkm]
        omega
      · rw [if_neg hm, if_neg hm, ih]

/-- Merging a sub-breakdown adds its total key weight to the accumulator. -/
theorem lookupD_mergeDict (s : Breakdown) :
    ∀ (a : Breakdown) (m : String),
      lookupD (mergeDict a s) m = lookupD a m + entryWeight s m := by
  induction s with
  | nil =>
    intro a m
    simp [mergeDict, entryWeight]
  | cons p rest ih =>
    intro a m
    have hstep : mergeDict a (p :: rest) = mergeDict (updAdd a p.1 p.2) rest := by
      simp [mergeDict, List.foldl_cons]
    rw [hstep, ih, lookupD_updAdd]
    simp [entryWeight, Nat.add_assoc]

/-- Keys of an `updAdd` result come from the update key or the original. -/
theorem mem_keys_updAdd {d : Breakdown} {k : String} {v : Nat} {m : String}
    (h : m ∈ (updAdd d k v).map Prod.fst) : m = k ∨ m ∈ d.map Prod.fst := by
  induction d with
  | nil =>
    simp [updAdd] at h
    exact Or.inl h
  | cons p rest ih =>
    by_cases hp : p.1 = k
    · simp only [updAdd, if_pos hp, List.map_cons, List.mem_cons] at h
      rcases h with h | h
      · right
        simp [h]
      · right
        simp [h]
    · simp only [updAdd, if_neg hp, List.map_cons, List.mem_cons] at h
      rcases h with h | h
      · right
        simp [h]
      · rcases ih h with h1 | h1
        · exact Or.inl h1
        · right
          simp [h1]

/-- Dict update preserves distinctness of keys. -/
theorem nodup_keys_updAdd {d : Breakdown} (k : String) (v : Nat)
    (h : (d.map Prod.fst).Nodup) : ((updAdd d k v).map Prod.fst).Nodup := by
  induction d with
  | nil => simp [updAdd]
  | cons p rest ih =>
    simp only [List.map_cons, List.nodup_cons] at h
    by_cases hp : p.1 = k
    · simp only [updAdd, if_pos hp, List.map_cons, List.nodup_cons]
      exact h
    · simp only [updAdd, if_neg hp, List.map_cons, List.nodup_cons]
      refine ⟨fun hmem => ?_, ih h.2⟩
      rcases mem_keys_updAdd hmem with h1 | h1
      · exact hp (h1 ▸ rfl)
      · exact h.1 h1

/-- Dict merge preserves distinctness of the accumulator keys. -/
theorem nodup_keys_mergeDict (s : Breakdown) :
    ∀ (a : Breakdown), (a.map Prod.fst).Nodup →
      ((mergeDict a s).map Prod.fst).Nodup := by
  induction s with
  | nil =>
    intro a h
    simpa [mergeDict] using h
  | cons p rest ih =>
    intro a h
    have hstep : mergeDict a (p :: rest) = mergeDict (updAdd a p.1 p.2) rest := by
      simp [mergeDict, List.foldl_cons]
    rw [hstep]
    exact ih _ (nodup_keys_updAdd _ _ h)

/-- A fold whose step preserves key distinctness preserves it overall. -/
theorem nodup_keys_foldl {α : Type} (f : Breakdown → α → Breakdown)
    (hf : ∀ acc x, (acc.map Prod.fst).Nodup → ((f acc x).map Prod.fst).Nodup) :
    ∀ (l : List α) (acc : Breakdown), (acc.map Prod.fst).Nodup →
      ((l.foldl f acc).map Prod.fst).Nodup := by
  intro l
  induction l with
  | nil =>
    intro acc h
    simpa using h
  | cons x rest ih =>
    intro acc h
    rw [List.foldl_cons]
    exact ih _ (hf acc x h)

/-- Every breakdown produced by `resolveF` has distinct keys, as a Python
dict does. -/
theorem resolveF_keys_nodup (items : List Item) (cidx : List (String × String))
    (recipes : List Recipe) (f : Nat) (v : Finset String) (n : Nat)
    (i : String) :
    ((resolveF items cidx recipes f v n i).map Prod.fst).Nodup := by
  cases f with
  | zero => simp [resolveF]
  | succ a =>
    simp only [resolveF]
    split
    · simp
    split
    · simp
    split
    · simp
    split
    · simp
    split
    · simp
    exact nodup_keys_foldl _ (fun acc x h => nodup_keys_mergeDict _ _ h) _ _ (by simp)

/-- Every breakdown produced by `resolve` has distinct keys. -/
theorem resolve_keys_nodup (items : List Item) (cidx : List (String × String))
    (recipes : List Recipe) (v : Finset String) (n : Nat) (i : String) :
    ((resolve items cidx recipes v n i).map Prod.fst).Nodup :=
  resolveF_keys_nodup items cidx recipes _ v n i

/-- Every breakdown produced by `resolve_craftablesF` has distinct keys. -/
theorem resolve_craftablesF_keys_nodup (items : List Item)
    (cidx : List (String × String)) (recipes : List Recipe) (f : Nat)
    (v : Finset String) (n : Nat) (ir : Bool) (i : String) :
    ((resolve_craftablesF items cidx recipes f v n ir i).map Prod.fst).Nodup := by
  cases f with
  | zero => simp [resolve_craftablesF]
  | succ a =>
    simp only [resolve_craftablesF]
    split
    · simp
    split
    · simp
    split
    · simp
    split
    · simp
    split
    · simp
    split
    · refine nodup_keys_foldl _ (fun acc x h => ?_) _ _ (by simp)
      split
      · exact h
      · exact nodup_keys_mergeDict _ _ h
    · simp

/-- Every breakdown produced by `resolve_craftables` has distinct keys. -/
theorem resolve_craftables_keys_nodup (items : List Item)
    (cidx : List (String × String)) (recipes : List Recipe)
    (v : Finset String) (n : Nat) (ir : Bool) (i : String) :
    ((resolve_craftables items cidx recipes v n ir i).map Prod.fst).Nodup :=
  resolve_craftablesF_keys_nodup items cidx recipes _ v n ir i

/-- A key absent from a pair list has weight zero. -/
theorem entryWeight_eq_zero {d : Breakdown} {m : String}
    (h : m ∉ d.map Prod.fst) : entryWeight d m = 0 := by
  induction d with
  | nil => simp [entryWeight]
  | cons p rest ih =>
    simp only [List.map_cons, List.mem_cons, not_or] at h
    have hp : ¬p.1 = m := fun he => h.1 he.symm
    simp only [entryWeight, List.map_cons, List.sum_cons, if_neg hp] at *
    simpa [entryWeight] using ih h.2

/-- On a breakdown with distinct keys the total weight of a key is its
dict value. -/
theorem entryWeight_eq_lookupD {d : Breakdown} (m : String)
    (h : (d.map Prod.fst).Nodup) : entryWeight d m = lookupD d m := by
  induction d with
  | nil => simp [entryWeight, lookupD]
  | cons p rest ih =>
    simp only [List.map_cons, List.nodup_cons] at h
    by_cases hp : p.1 = m
    · have hnot : m ∉ rest.map Prod.fst := hp ▸ h.1
      have hz : (rest.map (fun p => if p.1 = m then p.2 else 0)).sum = 0 := by
        simpa [entryWeight] using entryWeight_eq_zero hnot
      simp [entryWeight, lookupD, hp, List.sum_cons, hz]
    · simp only [entryWeight, List.map_cons, List.sum_cons, if_neg hp,
        lookupD, Nat.zero_add]
      exact ih h.2

/-- Accumulating merge of per-branch breakdowns: the looked-up quantity of
any material in the fold result is its quantity in the accumulator plus
the sum of its quantities in each branch, each branch resolved
independently. -/
theorem lookupD_foldl_merge (F : Stack → Breakdown)
    (hF : ∀ ing, ((F ing).map Prod.fst).Nodup) :
    ∀ (l : List Stack) (acc : Breakdown) (m : String),
      lookupD (l.foldl (fun b ing => mergeDict b (F ing)) acc) m =
        lookupD acc m + (l.map (fun ing => lookupD (F ing) m)).sum := by
  intro l
  induction l with
  | nil =>
    intro acc m
    simp
  | cons ing rest ih =>
    intro acc m
    rw [List.foldl_cons, ih, lookupD_mergeDict,
      entryWeight_eq_lookupD m (hF ing)]
    simp [Nat.add_assoc]

/-- Characterization of `crafts_needed` as exact ceiling division: it is
the unique `k` with `q ≤ k * b` and `k * b < q + b`. -/
theorem crafts_needed_spec {q b : Nat} (hq : 1 ≤ q) (hb : 1 ≤ b) :
    q ≤ crafts_needed q b * b ∧ crafts_needed q b * b < q + b := by
  unfold crafts_needed
  have hdm := Nat.div_add_mod (q + b - 1) b
  have hmlt : (q + b - 1) % b < b := Nat.mod_lt _ (by omega)
  obtain ⟨A, hA⟩ : ∃ A, b * ((q + b - 1) / b) = A := ⟨_, rfl⟩
  have hcomm : (q + b - 1) / b * b = A := by rw [Nat.mul_comm]; exact hA
  rw [hA] at hdm
  rw [hcomm]
  omega

/-- Pointwise equal functions map alike. -/
theorem map_ext {α β : Type} (f g : α → β) :
    ∀ (l : List α), (∀ x ∈ l, f x = g x) → l.map f = l.map g := by
  intro l
  induction l with
  | nil =>
    intro _
    rfl
  | cons x rest ih =>
    intro h
    simp only [List.map_cons]
    rw [h x (by simp), ih (fun y hy => h y (by simp [hy]))]

/-- C2: a terminal item (no entry in the output index, or matching a
terminal override) resolves to exactly itself with the requested quantity,
and yields no intermediates, for every quantity of at least one. -/
theorem claim2 (items : List Item) (cidx : List (String × String))
    (recipes : List Recipe) (t : String) (q : Nat) (hq : 1 ≤ q)
    (ht : pyGet cidx t = none ∨ is_sand_item items t = true ∨
      is_charcoal_item items t = true) :
    resolve items cidx recipes ∅ q t = [(t, q)] ∧
      resolve_craftables items cidx recipes ∅ q true t = [] := by
  constructor
  · rw [resolve_eq, if_neg (Finset.not_mem_empty t)]
    rcases ht with h | h | h
    · cases hs : (is_sand_item items t || is_charcoal_item items t) with
      | true => rfl
      | false => rw [if_neg Bool.false_ne_true, h]
    · rw [if_pos (by rw [h, Bool.true_or])]
    · rw [if_pos (by rw [h, Bool.or_true])]
  · rw [resolve_craftables_eq, if_neg (Finset.not_mem_empty t)]
    rcases ht with h | h | h
    · cases hs : (is_sand_item items t || is_charcoal_item items t) with
      | true => rfl
      | false => rw [if_neg Bool.false_ne_true, h]
    · rw [if_pos (by rw [h, Bool.true_or])]
    · rw [if_pos (by rw [h, Bool.or_true])]

/-- Witness for C2 at the wood/plank/table catalog: wood is terminal. -/
theorem claim2_w :
    resolve wtItems wtIdx wtRecipes ∅ 5 "wood" = [("wood", 5)] ∧
      resolve_craftables wtItems wtIdx wtRecipes ∅ 5 true "wood" = [] :=
  claim2 wtItems wtIdx wtRecipes "wood" 5 (by decide) (Or.inl (by decide))

/-- C8: an item matching a terminal override resolves as raw and yields no
intermediates even when a producing recipe exists in the output index;
the recipe is never expanded by either resolver. -/
theorem claim8 (items : List Item) (cidx : List (String × String))
    (recipes : List Recipe) (i : String) (q : Nat) (rid : String)
    (hq : 1 ≤ q) (hidx : pyGet cidx i = some rid)
    (ho : is_sand_item items i = true ∨ is_charcoal_item items i = true) :
    resolve items cidx recipes ∅ q i = [(i, q)] ∧
      resolve_craftables items cidx recipes ∅ q true i = [] := by
  have hs : (is_sand_item items i || is_charcoal_item items i) = true := by
    rcases ho with h | h
    · rw [h, Bool.true_or]
    · rw [h, Bool.or_true]
  constructor
  · rw [resolve_eq, if_neg (Finset.not_mem_empty i), if_pos hs]
  · rw [resolve_craftables_eq, if_neg (Finset.not_mem_empty i), if_pos hs]

/-- Witness for C8: Sand has the producing recipe RS yet resolves as raw. -/
theorem claim8_w :
    resolve sandItems sandIdx sandRecipes ∅ 3 "sand" = [("sand", 3)] ∧
      resolve_craftables sandItems sandIdx sandRecipes ∅ 3 true "sand" = [] :=
  claim8 sandItems sandIdx sandRecipes "sand" 3 "RS" (by decide) (by decide)
    (Or.inl (by decide))

/-- C4: a non-root craftable non-override item reached with required
quantity `q` yields exactly the singleton `{item: crafts_needed}`, where
`crafts_needed` is the exact integer ceiling of `q` over the batch size of
the first declared output; its own ingredients are not expanded further
within the same call. -/
theorem claim4 (items : List Item) (cidx : List (String × String))
    (recipes : List Recipe) (v : Finset String) (i : String) (q : Nat)
    (rid : String) (r : Recipe) (o : Stack) (os : List Stack)
    (hv : i ∉ v) (hs : is_sand_item items i = false)
    (hc : is_charcoal_item items i = false)
    (hidx : pyGet cidx i = some rid) (hrec : getRecipe recipes rid = some r)
    (houts : r.outputs = o :: os) (hq : 1 ≤ q) (hb : 1 ≤ o.count) :
    resolve_craftables items cidx recipes v q false i =
        [(i, crafts_needed q o.count)] ∧
      q ≤ crafts_needed q o.count * o.count ∧
      crafts_needed q o.count * o.count < q + o.count := by
  refine ⟨?_, (crafts_needed_spec hq hb).1, (crafts_needed_spec hq hb).2⟩
  rw [resolve_craftables_eq, if_neg hv,
    if_neg (by rw [hs, hc]; exact Bool.false_ne_true), hidx]
  dsimp only
  rw [hrec]
  dsimp only
  rw [houts]
  dsimp only
  rw [if_neg (by exact Bool.false_ne_true)]

/-- Witness for C4 at the chain catalog: resolving Cart surfaces Frame with
its craft count but never Gear, and the non-root call for Frame returns
exactly the singleton. -/
theorem claim4_w :
    (resolve_craftables chainItems chainIdx chainRecipes {"cart"} 3 false "frame" =
        [("frame", crafts_needed 3 1)] ∧
      3 ≤ crafts_needed 3 1 * 1 ∧ crafts_needed 3 1 * 1 < 3 + 1) ∧
    resolve_craftables chainItems chainIdx chainRecipes ∅ 1 true "cart" =
      [("frame", 3)] ∧
    pyGet (resolve_craftables chainItems chainIdx chainRecipes ∅ 1 true "cart")
      "gear" = none := by
  refine ⟨claim4 chainItems chainIdx chainRecipes {"cart"} "frame" 3 "RF"
    recipeRF ⟨⟨"frame", "Frame"⟩, 1⟩ [] (by decide) (by decide) (by decide)
    (by decide) (by decide) (by decide) (by decide) (by decide), by decide, by decide⟩

/-- C3: for a craftable item whose producing recipe has first-output batch
size at least one and any requested quantity at least one, the resolver
computes the exact integer ceiling `crafts_needed` (never fractional) and
requests `count * crafts_needed` units of each ingredient: the quantity of
any material in the result is the sum over ingredients of its quantity in
the sub-resolution requested at `count * crafts_needed`. -/
theorem claim3 (items : List Item) (cidx : List (String × String))
    (recipes : List Recipe) (v : Finset String) (i : String) (q : Nat)
    (rid : String) (r : Recipe) (o : Stack) (os : List Stack)
    (hv : i ∉ v) (hs : is_sand_item items i = false)
    (hc : is_charcoal_item items i = false)
    (hidx : pyGet cidx i = some rid) (hrec : getRecipe recipes rid = some r)
    (houts : r.outputs = o :: os) (hq : 1 ≤ q) (hb : 1 ≤ o.count) :
    (q ≤ crafts_needed q o.count * o.count ∧
      crafts_needed q o.count * o.count < q + o.count) ∧
    ∀ m, lookupD (resolve items cidx recipes v q i) m =
      (r.itemIngredients.map (fun ing =>
        lookupD (resolve items cidx recipes (insert i v)
          (ing.count * crafts_needed q o.count) ing.entity.id) m)).sum := by
  refine ⟨crafts_needed_spec hq hb, fun m => ?_⟩
  rw [resolve_eq, if_neg hv,
    if_neg (by rw [hs, hc]; exact Bool.false_ne_true), hidx]
  dsimp only
  rw [hrec]
  dsimp only
  rw [houts]
  dsimp only
  rw [lookupD_foldl_merge
    (fun ing => resolve items cidx recipes (insert i v)
      (ing.count * crafts_needed q o.count) ing.entity.id)
    (fun ing => resolve_keys_nodup items cidx recipes (insert i v)
      (ing.count * crafts_needed q o.count) ing.entity.id)
    r.itemIngredients [] m]
  simp [lookupD]

/-- Witness for C3 at the batch catalog: batch size 5, requested quantity 7,
so `crafts_needed = 2` and the single Clay ingredient contributes
`3 * 2 = 6`. -/
theorem claim3_w :
    (7 ≤ crafts_needed 7 5 * 5 ∧ crafts_needed 7 5 * 5 < 7 + 5) ∧
      lookupD (resolve batchItems batchIdx batchRecipes ∅ 7 "brick") "clay" =
        3 * crafts_needed 7 5 ∧ crafts_needed 7 5 = 2 := by
  have h := claim3 batchItems batchIdx batchRecipes ∅ "brick" 7 "RB5"
    recipeRB5 ⟨⟨"brick", "Brick"⟩, 5⟩ [] (by decide) (by decide) (by decide)
    (by decide) (by decide) (by decide) (by decide) (by decide)
  refine ⟨h.1, ?_, by decide⟩
  rw [h.2 "clay"]
  decide

/-- C5: sibling ingredient branches are resolved independently against the
same path copy, and the accumulator sums their contributions: the
looked-up quantity of any material in the ingredient-loop fold equals its
quantity in the accumulator plus the sum of its quantities in each
branch, for both resolvers. -/
theorem claim5 (items : List Item) (cidx : List (String × String))
    (recipes : List Recipe) (v : Finset String) (c : Nat) (l : List Stack)
    (acc : Breakdown) (m : String) :
    lookupD (l.foldl (fun b ing =>
        mergeDict b (resolve items cidx recipes v (ing.count * c)
          ing.entity.id)) acc) m =
      lookupD acc m + (l.map (fun ing =>
        lookupD (resolve items cidx recipes v (ing.count * c)
          ing.entity.id) m)).sum ∧
    lookupD (l.foldl (fun b ing =>
        if ing.entity.id = "" then b
        else mergeDict b (resolve_craftables items cidx recipes v
          (ing.count * c) false ing.entity.id)) acc) m =
      lookupD acc m + (l.map (fun ing =>
        if ing.entity.id = "" then 0
        else lookupD (resolve_craftables items cidx recipes v
          (ing.count * c) false ing.entity.id) m)).sum := by
  constructor
  · exact lookupD_foldl_merge _
      (fun ing => resolve_keys_nodup items cidx recipes v (ing.count * c)
        ing.entity.id) l acc m
  · have hstep : l.foldl (fun b ing =>
        if ing.entity.id = "" then b
        else mergeDict b (resolve_craftables items cidx recipes v
          (ing.count * c) false ing.entity.id)) acc =
        l.foldl (fun b ing =>
          mergeDict b (if ing.entity.id = "" then []
            else resolve_craftables items cidx recipes v (ing.count * c)
              false ing.entity.id)) acc := by
      refine foldl_ext _ _ l acc (fun x _ a => ?_)
      by_cases hz : x.entity.id = ""
      · rw [if_pos hz, if_pos hz]
        rfl
      · rw [if_neg hz, if_neg hz]
    rw [hstep, lookupD_foldl_merge
      (fun ing => if ing.entity.id = "" then []
        else resolve_craftables items cidx recipes v (ing.count * c) false
          ing.entity.id)
      (fun ing => ?_) l acc m]
    · congr 1
      refine congrArg List.sum (map_ext _ _ l (fun x _ => ?_))
      by_cases hz : x.entity.id = ""
      · rw [if_pos hz, if_pos hz]
        rfl
      · rw [if_neg hz, if_neg hz]
    · dsimp only
      by_cases hz : ing.entity.id = ""
      · rw [if_pos hz]
        simp
      · rw [if_neg hz]
        exact resolve_craftables_keys_nodup items cidx recipes v
          (ing.count * c) false ing.entity.id

/-- C6: both resolvers terminate on every catalog: any recursion depth above
the path-derived bound gives the same breakdown (the fueled model never
runs out), an item already on the current path contributes the empty
breakdown (the cyclic branch is truncated), and on the concrete cyclic
catalog (Alpha requires Beta requires Alpha) both resolvers return a
breakdown rather than failing. -/
theorem claim6 (items : List Item) (cidx : List (String × String))
    (recipes : List Recipe) (v : Finset String) (n : Nat) (ir : Bool)
    (i : String) (f : Nat) (hf : (outKeys cidx \ v).card < f) :
    (resolveF items cidx recipes f v n i = resolve items cidx recipes v n i ∧
      resolve_craftablesF items cidx recipes f v n ir i =
        resolve_craftables items cidx recipes v n ir i) ∧
    (i ∈ v → resolve items cidx recipes v n i = [] ∧
      resolve_craftables items cidx recipes v n ir i = []) ∧
    (resolve cycItems cycIdx cycRecipes ∅ 1 "A" = [] ∧
      resolve_craftables cycItems cycIdx cycRecipes ∅ 1 true "A" = [("B", 1)]) := by
  refine ⟨⟨?_, ?_⟩, fun hv => ⟨?_, ?_⟩, by constructor <;> rfl⟩
  · exact resolveF_congr items cidx recipes f ((outKeys cidx \ v).card + 1)
      v n i hf (by omega)
  · exact resolve_craftablesF_congr items cidx recipes f
      ((outKeys cidx \ v).card + 1) v n ir i hf (by omega)
  · rw [resolve_eq, if_pos hv]
  · rw [resolve_craftables_eq, if_pos hv]

/-- Witness for C6 at the cyclic catalog, depth 3 above the bound 2. -/
theorem claim6_w :
    (resolveF cycItems cycIdx cycRecipes 3 ∅ 1 "A" =
        resolve cycItems cycIdx cycRecipes ∅ 1 "A" ∧
      resolve_craftablesF cycItems cycIdx cycRecipes 3 ∅ 1 true "A" =
        resolve_craftables cycItems cycIdx cycRecipes ∅ 1 true "A") ∧
    ("A" ∈ (∅ : Finset String) → resolve cycItems cycIdx cycRecipes ∅ 1 "A" = [] ∧
      resolve_craftables cycItems cycIdx cycRecipes ∅ 1 true "A" = []) ∧
    (resolve cycItems cycIdx cycRecipes ∅ 1 "A" = [] ∧
      resolve_craftables cycItems cycIdx cycRecipes ∅ 1 true "A" = [("B", 1)]) :=
  claim6 cycItems cycIdx cycRecipes ∅ 1 true "A" 3 (by decide)

/-- C7: an output-index entry naming a recipe id absent from the recipe
catalog, or naming a recipe with no declared outputs, degrades gracefully
(`resolve` returns the item as a raw leaf, `resolve_craftables` returns a
result), but the blanket no-exception guarantee fails: on a recipe whose
ingredient record lacks a `count` key, `resolve` reads `ing["count"]`
directly and the `KeyError` escapes the resolution call (the docstring
promises a dict is always returned). -/
theorem claim7 :
    resolve ghostItems ghostIdx ghostRecipes ∅ 1 "box" = [("box", 1)] ∧
      resolve_craftables ghostItems ghostIdx ghostRecipes ∅ 1 true "box" = [] ∧
      resolve ghostItems noOutIdx noOutRecipes ∅ 1 "box" = [("box", 1)] ∧
      resolve_craftables ghostItems noOutIdx noOutRecipes ∅ 1 true "box" = [] ∧
      resolveJ jItems jIdx jRecipes ∅ 1 "jbox" =
        Except.error ("KeyError: count") := by
  refine ⟨rfl, rfl, rfl, rfl, rfl⟩

/-- The renderer never completes on the cyclic catalog: at every recursion
depth, rendering Alpha or Beta is still descending when the depth runs
out, because the source recurses into craftable ingredients with no
visited guard. -/
theorem render_tree_cyc_stuck : ∀ (f ind : Nat),
    render_tree cycIdx cycRecipes f "A" ind = Except.error RenderErr.outOfDepth ∧
      render_tree cycIdx cycRecipes f "B" ind = Except.error RenderErr.outOfDepth := by
  intro f
  induction f with
  | zero =>
    intro ind
    exact ⟨rfl, rfl⟩
  | succ a ih =>
    intro ind
    have h1 : pyGet cycIdx "A" = some "RA" := rfl
    have h2 : getRecipe cycRecipes "RA" = some recipeRA := rfl
    have h3 : recipeRA.itemIngredients = [⟨⟨"B", "Beta"⟩, 1⟩] := rfl
    have h4 : pyGet cycIdx "B" = some "RB" := rfl
    have h5 : getRecipe cycRecipes "RB" = some recipeRB := rfl
    have h6 : recipeRB.itemIngredients = [⟨⟨"A", "Alpha"⟩, 1⟩] := rfl
    constructor
    · simp only [render_tree, h1, h2, h3]
      rw [List.foldlM_cons]
      dsimp only
      rw [(ih (ind + 2)).2]
      rfl
    · simp only [render_tree, h4, h5, h6]
      rw [List.foldlM_cons]
      dsimp only
      rw [(ih (ind + 2)).1]
      rfl

/-- C9: `render_tree` does not terminate on cyclic catalogs: on the cyclic
catalog the rendering of Alpha exhausts every finite recursion depth
(whereas the resolvers, bounded by their path-local visited guard,
return on the same catalog, see the cyclic clause of the C6 theorem);
the source has no visited guard at all in `render_tree`. -/
theorem claim9 : ∀ (f ind : Nat),
    render_tree cycIdx cycRecipes f "A" ind =
      Except.error RenderErr.outOfDepth :=
  fun f ind => (render_tree_cyc_stuck f ind).1

/-- Row-building fold of the intermediate-crafting table: every entry of the
craftables breakdown contributes a row whose displayed quantity is its
computed quantity times the slider value again. -/
theorem craftRows_mem (items : List Item) (cidx : List (String × String))
    (recipes : List Recipe) (q : Nat) :
    ∀ (l : Breakdown) (acc rows : List (String × Nat × String × Option Nat)),
      l.foldlM (fun rows p => do
          let info ← get_recipe_crafting_info cidx recipes p.1
          let item ← pyGetItem items p.1
          pure (rows ++ [(get_item_emoji item ++ " " ++ item.name, p.2 * q,
            info.1, info.2)])) acc = some rows →
      (∀ r ∈ acc, r ∈ rows) ∧
        ∀ p ∈ l, ∃ nm sk lv, (nm, p.2 * q, sk, lv) ∈ rows := by
  intro l
  induction l with
  | nil =>
    intro acc rows h
    simp only [List.foldlM_nil] at h
    cases h
    exact ⟨fun r hr => hr, by simp⟩
  | cons p rest ih =>
    intro acc rows h
    rw [List.foldlM_cons] at h
    cases hI : get_recipe_crafting_info cidx recipes p.1 with
    | none =>
      rw [hI] at h
      simp at h
    | some info =>
      cases hIt : pyGetItem items p.1 with
      | none =>
        rw [hI, hIt] at h
        simp at h
      | some item =>
        rw [hI, hIt] at h
        simp only [Option.bind_some, Option.pure_def, Option.bind_eq_bind] at h
        have h' : rest.foldlM (fun rows p => do
            let info ← get_recipe_crafting_info cidx recipes p.1
            let item ← pyGetItem items p.1
            pure (rows ++ [(get_item_emoji item ++ " " ++ item.name, p.2 * q,
              info.1, info.2)]))
            (acc ++ [(get_item_emoji item ++ " " ++ item.name, p.2 * q,
              info.1, info.2)]) = some rows := h
        have hres := ih _ rows h'
        refine ⟨fun r hr => hres.1 r (by simp [hr]), fun x hx => ?_⟩
        rcases List.mem_cons.mp hx with he | hx'
        · subst he
          exact ⟨get_item_emoji item ++ " " ++ item.name, info.1, info.2,
            hres.1 _ (by simp)⟩
        · exact hres.2 x hx'

/-- C10: the display layer computes both breakdowns with `needed = q` and
then multiplies every displayed quantity by `q` again: the raw-materials
table is the prettified breakdown with every quantity times `q`, and each
intermediate with computed quantity `qty` is shown in a row with quantity
`qty * q`. -/
theorem claim10 (items : List Item) (cidx : List (String × String))
    (recipes : List Recipe) (target : String) (q : Nat) :
    (∀ pretty, prettify_breakdown (resolve items cidx recipes ∅ q target)
        items = some pretty →
      rawRowsUI items cidx recipes target q =
        some (pretty.map (fun p => (p.1, p.2 * q)))) ∧
    (∀ rows, craftRowsUI items cidx recipes target q = some rows →
      ∀ p ∈ resolve_craftables items cidx recipes ∅ q true target,
        ∃ nm sk lv, (nm, p.2 * q, sk, lv) ∈ rows) := by
  constructor
  · intro pretty h
    unfold rawRowsUI
    rw [h]
    rfl
  · intro rows h p hp
    exact (craftRows_mem items cidx recipes q
      (resolve_craftables items cidx recipes ∅ q true target) [] rows h).2 p hp

/-- Witness for C10 at the wood/plank/table catalog with slider value 2:
`resolve` already accounts for the two tables (16 wood, 8 plank crafts),
and the tables display 32 and 16. -/
theorem claim10_w :
    rawRowsUI wtItems wtIdx wtRecipes "table" 2 = some [("🪵 Wood", 32)] ∧
      (∃ nm sk lv, (nm, 16, sk, lv) ∈
        [("🪵 Plank", 16, "Unknown", (none : Option Nat))]) := by
  have h := claim10 wtItems wtIdx wtRecipes "table" 2
  constructor
  · exact h.1 [("🪵 Wood", 16)] (by rfl)
  · exact h.2 [("🪵 Plank", 16, "Unknown", none)] (by rfl) ("plank", 8) (by decide)
